import Mathlib

/-!
Verification of the daily-refresh core of the embedding-server repository.

The development shallowly embeds, from the Python sources:
  - app/domain/answer_picker_hash.py   (HashAnswerPicker.pick)
  - app/domain/similarity.py           (cosine_similarity)
  - app/application/services/daily_refresh.py
      (run_daily_refresh, filter_and_dedupe, normalize)
  - app/application/ports.py           (Neighbor, TodayAnswerState, the ports)

Python machine details are modelled as follows: str.strip() becomes the
function strip below (drop whitespace from both ends of the character
list); bytes are lists of Nat below 256; SHA-256 is implemented over such
byte lists; Python float scores are modelled as exact rationals and the
real-valued cosine similarity is stated over the reals; the refresh
pipeline is a pure function that threads the in-memory state slot and
returns the list of cache commands it issues, which a separate interpreter
(applyOp / applyTrace) runs against a cache state.
-/

/-- Model of Python str.strip on a character list: remove whitespace from
both ends. -/
def stripChars (l : List Char) : List Char :=
  ((l.dropWhile Char.isWhitespace).reverse.dropWhile Char.isWhitespace).reverse

/-- Model of Python str.strip. -/
def strip (s : String) : String :=
  String.mk (stripChars s.data)

/-- UTF-8 encoding of a single code point, as bytes. -/
def utf8Char (c : Char) : List Nat :=
  let n := c.toNat
  if n < 128 then [n]
  else if n < 2048 then [192 + n / 64, 128 + n % 64]
  else if n < 65536 then [224 + n / 4096, 128 + n / 64 % 64, 128 + n % 64]
  else [240 + n / 262144, 128 + n / 4096 % 64, 128 + n / 64 % 64, 128 + n % 64]

/-- UTF-8 encoding of a string, as bytes (model of str.encode utf-8). -/
def utf8Bytes (s : String) : List Nat :=
  s.data.foldr (fun c acc => utf8Char c ++ acc) []

/-! SHA-256 over byte lists, translated from the FIPS 180-4 algorithm that
hashlib.sha256 implements.  Words are Nat kept below 2 ^ 32 by w32. -/

/-- Truncation to a 32-bit word. -/
def w32 (n : Nat) : Nat := n % 4294967296

/-- Right rotation of a 32-bit word. -/
def rotr32 (x n : Nat) : Nat := (x >>> n) ||| w32 (x <<< (32 - n))

/-- Round constants of SHA-256 (the cube-root fractions of FIPS 180-4,
written in decimal). -/
def shaK : List Nat :=
  [1116352408, 1899447441, 3049323471, 3921009573, 961987163, 1508970993,
   2453635748, 2870763221, 3624381080, 310598401, 607225278, 1426881987,
   1925078388, 2162078206, 2614888103, 3248222580, 3835390401, 4022224774,
   264347078, 604807628, 770255983, 1249150122, 1555081692, 1996064986,
   2554220882, 2821834349, 2952996808, 3210313671, 3336571891, 3584528711,
   113926993, 338241895, 666307205, 773529912, 1294757372, 1396182291,
   1695183700, 1986661051, 2177026350, 2456956037, 2730485921, 2820302411,
   3259730800, 3345764771, 3516065817, 3600352804, 4094571909, 275423344,
   430227734, 506948616, 659060556, 883997877, 958139571, 1322822218,
   1537002063, 1747873779, 1955562222, 2024104815, 2227730452, 2361852424,
   2428436474, 2756734187, 3204031479, 3329325298]

/-- Initial hash state of SHA-256, in decimal. -/
def shaH0 : List Nat :=
  [1779033703, 3144134277, 1013904242, 2773480762, 1359893119,
   2600822924, 528734635, 1541459225]

/-- SHA-256 padding: append 0x80, zeros up to 56 mod 64, and the bit length
big-endian in 8 bytes. -/
def shaPad (msg : List Nat) : List Nat :=
  let len := msg.length
  let padlen := (56 + 64 - (len + 1) % 64) % 64
  msg ++ [0x80] ++ List.replicate padlen 0 ++
    [(len * 8) >>> 56 % 256, (len * 8) >>> 48 % 256, (len * 8) >>> 40 % 256, (len * 8) >>> 32 % 256,
     (len * 8) >>> 24 % 256, (len * 8) >>> 16 % 256, (len * 8) >>> 8 % 256, (len * 8) % 256]

/-- Big-endian grouping of bytes into 32-bit words. -/
def shaWords : List Nat → List Nat
  | b0 :: b1 :: b2 :: b3 :: rest => (((b0 * 256 + b1) * 256 + b2) * 256 + b3) :: shaWords rest
  | _ => []

/-- Message-schedule extension of the 16 chunk words to 64 words. -/
def shaSchedule (ws : List Nat) : List Nat :=
  (List.range 48).foldl (fun ws i =>
    let wa := ws.getD (i + 1) 0
    let wb := ws.getD (i + 14) 0
    let s0 := rotr32 wa 7 ^^^ rotr32 wa 18 ^^^ (wa >>> 3)
    let s1 := rotr32 wb 17 ^^^ rotr32 wb 19 ^^^ (wb >>> 10)
    ws ++ [w32 (ws.getD i 0 + s0 + ws.getD (i + 9) 0 + s1)]) ws

/-- One round of the SHA-256 compression function. -/
def shaCompressStep (st : List Nat) (kw : Nat × Nat) : List Nat :=
  let a := st.getD 0 0
  let b := st.getD 1 0
  let c := st.getD 2 0
  let d := st.getD 3 0
  let e := st.getD 4 0
  let f := st.getD 5 0
  let g := st.getD 6 0
  let h := st.getD 7 0
  let s1 := rotr32 e 6 ^^^ rotr32 e 11 ^^^ rotr32 e 25
  let ch := (e &&& f) ^^^ ((e ^^^ 0xffffffff) &&& g)
  let t1 := w32 (h + s1 + ch + kw.1 + kw.2)
  let s0 := rotr32 a 2 ^^^ rotr32 a 13 ^^^ rotr32 a 22
  let mj := (a &&& b) ^^^ (a &&& c) ^^^ (b &&& c)
  let t2 := w32 (s0 + mj)
  [w32 (t1 + t2), a, b, c, w32 (d + t1), e, f, g]

/-- Compression of one 64-byte chunk into the running hash state. -/
def shaCompress (h : List Nat) (chunk : List Nat) : List Nat :=
  let st := (shaK.zip (shaSchedule (shaWords chunk))).foldl shaCompressStep h
  (h.zip st).map (fun p => w32 (p.1 + p.2))

/-- Fuel-indexed split of the padded message into 64-byte chunks. -/
def shaChunks : Nat → List Nat → List (List Nat)
  | 0, _ => []
  | _ + 1, [] => []
  | n + 1, l => l.take 64 :: shaChunks n (l.drop 64)

/-- Big-endian serialization of the final hash words into bytes. -/
def shaBytes : List Nat → List Nat
  | [] => []
  | w :: rest => [w >>> 24 % 256, w >>> 16 % 256, w >>> 8 % 256, w % 256] ++ shaBytes rest

/-- SHA-256 digest of a byte list, as the 32 raw digest bytes
(model of hashlib.sha256(key).digest()). -/
def sha256 (msg : List Nat) : List Nat :=
  let padded := shaPad msg
  shaBytes ((shaChunks padded.length padded).foldl shaCompress shaH0)

/-! Lexicographic comparison, the model of the Python < on bytes, str and
tuples used by answer_picker_hash.py when it keeps the minimum
(digest, candidate) pair. -/

/-- Strict lexicographic order on Nat lists, as Python compares two bytes
values (and two str values through their code points). -/
def bytesLt : List Nat → List Nat → Bool
  | _, [] => false
  | [], _ :: _ => true
  | a :: as, b :: bs => a < b || (a == b && bytesLt as bs)

/-- Code points of a string, the sort key of Python str comparison. -/
def strCodes (s : String) : List Nat :=
  s.data.map Char.toNat

namespace HashAnswerPicker

/-- Digest attached to one candidate:
sha256 of the UTF-8 bytes of date ++ bar ++ trimmed candidate
(the Python expression hashlib.sha256(f-string(date|s).encode(utf-8)).digest()). -/
def candDigest (date s : String) : List Nat :=
  sha256 (utf8Bytes (date ++ "|" ++ s))

/-- Comparison of two (digest, candidate) pairs, the Python tuple
comparison item < best in HashAnswerPicker.pick. -/
def itemLt (x y : List Nat × String) : Bool :=
  bytesLt x.1 y.1 || (x.1 == y.1 && bytesLt (strCodes x.2) (strCodes y.2))

/-- Candidate items that survive the blank filter of the pick loop, each
paired with its digest, in list order. -/
def pickItems (date : String) (candidates : List String) : List (List Nat × String) :=
  candidates.filterMap (fun c =>
    let s := strip c
    if s = "" then none else some (candDigest date s, s))

/-- One step of the running minimum of the pick loop: the Python lines
if best is None or item < best then best = item. -/
def bestStep (best : Option (List Nat × String)) (item : List Nat × String) :
    Option (List Nat × String) :=
  match best with
  | none => some item
  | some b => if itemLt item b then some item else some b

/-- Fold of the pick loop: keep the smallest item seen so far. -/
def selectBest (items : List (List Nat × String)) : Option (List Nat × String) :=
  items.foldl bestStep none

/-- Translation of HashAnswerPicker.pick.  The Python loop interleaves the
blank filter and the running minimum; here the filter is pickItems and the
minimum is selectBest, folded over the same list in the same order.  The
two raise statements become the two error branches. -/
def pick (date : String) (candidates : List String) : Except String String :=
  if candidates = [] then .error "candidates is empty"
  else
    match selectBest (pickItems date candidates) with
    | none => .error "candidates contains no valid (non-empty) entries"
    | some b => .ok b.2

end HashAnswerPicker

/-! Data model of app/application/ports.py.  Python float scores and
vector components are modelled as exact rationals. -/

/-- One kNN result item (ports.Neighbor). -/
structure Neighbor where
  word : String
  score : ℚ
deriving DecidableEq

/-- In-memory state of the answer of the day (ports.TodayAnswerState). -/
structure TodayAnswerState where
  date : String
  answer : String
  answer_vector : Option (List ℚ)
deriving DecidableEq

/-- Vector store port (ports.VectorStorePort), as a pair of pure stub
functions: get_vector and knn. -/
structure VectorStorePort where
  get_vector : String → Option (List ℚ)
  knn : List ℚ → Nat → List Neighbor

/-- One command sent to the daily cache port (ports.DailyCachePort); the
pipeline emits these in order, and applyOp interprets them. -/
inductive CacheOp where
  | save_daily_answer : String → String → CacheOp
  | save_daily_topk : String → List Neighbor → CacheOp
  | set_active_date : String → CacheOp
  | delete_daily : String → CacheOp
deriving DecidableEq

/-- Observable state of the durable daily cache: the active-date pointer
and the per-date answer and neighbor records. -/
structure CacheState where
  active_date : Option String
  answers : String → Option String
  topks : String → Option (List Neighbor)

/-- Interpretation of one cache command against the cache state, from the
DailyCachePort contract (save writes the record of that date, set flips
the pointer, delete removes both records of that date). -/
def applyOp (c : CacheState) : CacheOp → CacheState
  | CacheOp.save_daily_answer d a =>
      { c with answers := fun x => if x = d then some a else c.answers x }
  | CacheOp.save_daily_topk d items =>
      { c with topks := fun x => if x = d then some items else c.topks x }
  | CacheOp.set_active_date d =>
      { c with active_date := some d }
  | CacheOp.delete_daily d =>
      { c with answers := fun x => if x = d then none else c.answers x,
               topks := fun x => if x = d then none else c.topks x }

/-- Interpretation of a command trace, first command first. -/
def applyTrace (c : CacheState) (t : List CacheOp) : CacheState :=
  t.foldl applyOp c

/-- Result record of the refresh use case (daily_refresh.DailyRefreshResult). -/
structure DailyRefreshResult where
  state : TodayAnswerState
  topk : List Neighbor
deriving DecidableEq

deriving instance DecidableEq for Except

/-- Full observable outcome of one run_daily_refresh call: the returned
value (or the propagated exception), the state-store slot after the call,
and the ordered trace of cache commands issued. -/
structure RunOutput where
  result : Except String DailyRefreshResult
  state_store : Option TodayAnswerState
  trace : List CacheOp
deriving DecidableEq

/-- Translation of the inner helper normalize of run_daily_refresh (the
name normalize itself is taken by the library). -/
def normalizeWord (w : String) : String := strip w

/-- One iteration of the filter_and_dedupe loop; the accumulator carries
the seen set (as a list) and the output list. -/
def fdStep (answer : String) (acc : List String × List Neighbor) (it : Neighbor) :
    List String × List Neighbor :=
  let w := normalizeWord it.word
  if w = "" then acc
  else if w = answer then acc
  else if w ∈ acc.1 then acc
  else (acc.1 ++ [w], acc.2 ++ [Neighbor.mk w it.score])

/-- Translation of the inner helper filter_and_dedupe of run_daily_refresh:
trim each word, drop blanks, drop the answer itself, drop words already
seen, keep first-seen order. -/
def filter_and_dedupe (answer : String) (items : List Neighbor) : List Neighbor :=
  (items.foldl (fdStep answer) ([], [])).2

/-- Cache commands issued by the rotation block of run_daily_refresh.  The
same five lines appear twice in the source (the vector-absent branch and
the main path); both are this trace.  The guard on prev_date reflects
Python truthiness: None and the empty string are both falsy. -/
def rotateTrace (cache : Option CacheState) (date answer : String) (topk : List Neighbor) :
    List CacheOp :=
  match cache with
  | none => []
  | some c =>
    let prev_date := c.active_date
    [CacheOp.save_daily_answer date answer, CacheOp.save_daily_topk date topk,
     CacheOp.set_active_date date] ++
      (match prev_date with
       | some p => if p ≠ "" ∧ p ≠ date then [CacheOp.delete_daily p] else []
       | none => [])

/-- Translation of run_daily_refresh.  The answer picker is a parameter
(matching AnswerPickerPort); answer_source stands for the list returned by
answer_source.list_answers(); the state-store slot is threaded explicitly;
the cache commands are collected as a trace.  An exception from the picker
propagates before any state-store write or cache command. -/
def run_daily_refresh (date : String) (answer_source : List String)
    (answer_picker : String → List String → Except String String)
    (vector_store : VectorStorePort)
    (state_store : Option TodayAnswerState)
    (cache : Option CacheState) (k : Nat) : RunOutput :=
  let candidates := answer_source
  match answer_picker date candidates with
  | .error e => RunOutput.mk (.error e) state_store []
  | .ok picked =>
    let answer := strip picked
    match vector_store.get_vector answer with
    | none =>
      let topk : List Neighbor := []
      RunOutput.mk (.ok (DailyRefreshResult.mk (TodayAnswerState.mk date answer none) topk))
        (some (TodayAnswerState.mk date answer none))
        (rotateTrace cache date answer topk)
    | some v =>
      let raw1 := vector_store.knn v (k + 1)
      let filtered1 := filter_and_dedupe answer raw1
      let filtered :=
        if filtered1.length < k then filter_and_dedupe answer (vector_store.knn v (k + 50))
        else filtered1
      let topk := filtered.take k
      RunOutput.mk (.ok (DailyRefreshResult.mk (TodayAnswerState.mk date answer (some v)) topk))
        (some (TodayAnswerState.mk date answer (some v)))
        (rotateTrace cache date answer topk)

/-! Model of app/domain/similarity.py.  Inputs are exact rationals; the
returned similarity is a real number. -/

/-- Accumulation loop of cosine_similarity: one pass over the zipped
sequences summing dot, norm-squared of a, norm-squared of b. -/
def simAccum (a b : List ℚ) : ℚ × ℚ × ℚ :=
  (a.zip b).foldl
    (fun acc p => (acc.1 + p.1 * p.2, acc.2.1 + p.1 * p.1, acc.2.2 + p.2 * p.2))
    (0, 0, 0)

/-- Dot product of two equal-length sequences (specification shorthand). -/
def dotList (a b : List ℚ) : ℚ :=
  ((a.zip b).map (fun p => p.1 * p.2)).sum

/-- Sum of squares of a sequence (specification shorthand). -/
def sumSq (l : List ℚ) : ℚ :=
  (l.map (fun x => x * x)).sum

/-- Euclidean norm of a sequence, as a real number. -/
noncomputable def euclNorm (l : List ℚ) : ℝ :=
  Real.sqrt (sumSq l)

/-- Translation of cosine_similarity: None on length mismatch or empty
input, one accumulation pass, None on a zero norm, else the quotient. -/
noncomputable def cosine_similarity (a b : List ℚ) : Option ℝ :=
  if a.length ≠ b.length ∨ a.length = 0 then none
  else
    let acc := simAccum a b
    if acc.2.1 = 0 ∨ acc.2.2 = 0 then none
    else some ((acc.1 : ℝ) / (Real.sqrt (acc.2.1 : ℝ) * Real.sqrt (acc.2.2 : ℝ)))

/-- Invariant claimed of neighbor lists: after trimming, no entry is the
answer word, none is blank, and no two entries coincide. -/
def NeighborListOk (answer : String) (l : List Neighbor) : Prop :=
  (∀ n ∈ l, strip n.word ≠ answer ∧ strip n.word ≠ "") ∧
  l.Pairwise (fun m n => strip m.word ≠ strip n.word)

/-- Stub answer picker for concrete executions: first candidate or an
error on an empty list. -/
def demoPicker (_date : String) (candidates : List String) : Except String String :=
  match candidates with
  | [] => .error "empty"
  | c :: _ => .ok c

/-- Stub vector store for concrete executions: one known word with a
vector, and a fixed kNN response. -/
def demoVS : VectorStorePort :=
  VectorStorePort.mk
    (fun w => if w = "alpha" then some [1] else none)
    (fun _ _ => [Neighbor.mk "beta" 1, Neighbor.mk "alpha" 2, Neighbor.mk " beta " 1])

/-- Stub vector store that knows no vectors. -/
def demoVSempty : VectorStorePort :=
  VectorStorePort.mk (fun _ => none) (fun _ _ => [])

/-- Empty initial cache state for concrete executions. -/
def demoCache : CacheState :=
  CacheState.mk none (fun _ => none) (fun _ => none)

/-- Loop invariant of the filter_and_dedupe fold: every output word is
non-blank, differs from the answer, is already trimmed, and is recorded in
the seen list; output words are pairwise distinct. -/
def FdInv (answer : String) (acc : List String × List Neighbor) : Prop :=
  (∀ n ∈ acc.2, n.word ≠ "" ∧ n.word ≠ answer ∧ strip n.word = n.word ∧ n.word ∈ acc.1) ∧
  acc.2.Pairwise (fun m n => m.word ≠ n.word)

/-- First demo run, for date 2024-01-01 against the empty cache. -/
def demoRun1 : RunOutput :=
  run_daily_refresh "2024-01-01" ["alpha"] demoPicker demoVS none (some demoCache) 1

/-- Cache state after the first demo run. -/
def demoCache1 : CacheState := applyTrace demoCache demoRun1.trace

/-- Second demo run, for date 2024-01-02 against the rotated cache. -/
def demoRun2 : RunOutput :=
  run_daily_refresh "2024-01-02" ["alpha"] demoPicker demoVS demoRun1.state_store
    (some demoCache1) 1

/-- Cache state after the second demo run. -/
def demoCache2 : CacheState := applyTrace demoCache1 demoRun2.trace

/-! Order lemmas for the lexicographic comparisons. -/

theorem bytesLt_irrefl (l : List Nat) : bytesLt l l = false := by
  induction l with
  | nil => rfl
  | cons a as ih => simp [bytesLt, ih]

theorem bytesLt_trichotomy : ∀ (a b : List Nat),
    bytesLt a b = true ∨ bytesLt b a = true ∨ a = b
  | [], [] => Or.inr (Or.inr rfl)
  | [], _ :: _ => Or.inl (by simp [bytesLt])
  | _ :: _, [] => Or.inr (Or.inl (by simp [bytesLt]))
  | a :: as, b :: bs => by
    rcases Nat.lt_trichotomy a b with h | h | h
    · exact Or.inl (by simp [bytesLt, h])
    · subst h
      rcases bytesLt_trichotomy as bs with h2 | h2 | h2
      · exact Or.inl (by simp [bytesLt, h2])
      · exact Or.inr (Or.inl (by simp [bytesLt, h2]))
      · exact Or.inr (Or.inr (by rw [h2]))
    · exact Or.inr (Or.inl (by simp [bytesLt, h]))

theorem bytesLt_trans : ∀ (a b c : List Nat),
    bytesLt a b = true → bytesLt b c = true → bytesLt a c = true
  | _, b, [], _, h2 => by simp [bytesLt] at h2
  | [], b, _ :: _, _, _ => by simp [bytesLt]
  | a :: as, [], c :: cs, h1, _ => by simp [bytesLt] at h1
  | a :: as, b :: bs, c :: cs, h1, h2 => by
    simp only [bytesLt, Bool.or_eq_true, Bool.and_eq_true, beq_iff_eq,
      decide_eq_true_eq] at h1 h2 ⊢
    rcases h1 with h1 | ⟨hab, h1b⟩
    · rcases h2 with h2 | ⟨hbc, h2b⟩
      · exact Or.inl (Nat.lt_trans h1 h2)
      · exact Or.inl (hbc ▸ h1)
    · rcases h2 with h2 | ⟨hbc, h2b⟩
      · exact Or.inl (hab ▸ h2)
      · exact Or.inr ⟨hab.trans hbc, bytesLt_trans as bs cs h1b h2b⟩

theorem char_toNat_injective : Function.Injective Char.toNat := by
  intro a b h
  have h2 := congrArg Char.ofNat h
  rwa [Char.ofNat_toNat, Char.ofNat_toNat] at h2

theorem strCodes_injective {s t : String} (h : strCodes s = strCodes t) : s = t := by
  apply String.ext
  exact List.map_injective_iff.mpr char_toNat_injective h

namespace HashAnswerPicker

theorem itemLt_irrefl (x : List Nat × String) : itemLt x x = false := by
  simp [itemLt, bytesLt_irrefl]

theorem itemLt_trans {x y z : List Nat × String}
    (h1 : itemLt x y = true) (h2 : itemLt y z = true) : itemLt x z = true := by
  simp only [itemLt, Bool.or_eq_true, Bool.and_eq_true, beq_iff_eq] at h1 h2 ⊢
  rcases h1 with h1 | ⟨e1, h1s⟩
  · rcases h2 with h2 | ⟨e2, h2s⟩
    · exact Or.inl (bytesLt_trans _ _ _ h1 h2)
    · exact Or.inl (e2 ▸ h1)
  · rcases h2 with h2 | ⟨e2, h2s⟩
    · exact Or.inl (e1 ▸ h2)
    · exact Or.inr ⟨e1.trans e2, bytesLt_trans _ _ _ h1s h2s⟩

theorem itemLt_trichotomy (x y : List Nat × String) :
    itemLt x y = true ∨ itemLt y x = true ∨ x = y := by
  rcases bytesLt_trichotomy x.1 y.1 with h | h | h
  · exact Or.inl (by simp [itemLt, h])
  · exact Or.inr (Or.inl (by simp [itemLt, h]))
  · rcases bytesLt_trichotomy (strCodes x.2) (strCodes y.2) with h2 | h2 | h2
    · exact Or.inl (by simp [itemLt, h, h2])
    · exact Or.inr (Or.inl (by simp [itemLt, h.symm, h2]))
    · exact Or.inr (Or.inr (Prod.ext h (strCodes_injective h2)))

theorem foldl_bestStep_spec : ∀ (l : List (List Nat × String)) (b0 : List Nat × String),
    ∃ b, l.foldl bestStep (some b0) = some b ∧ (b = b0 ∨ b ∈ l) ∧
      (∀ x, (x = b0 ∨ x ∈ l) → itemLt x b = false)
  | [], b0 => by
    refine ⟨b0, rfl, Or.inl rfl, ?_⟩
    rintro x (rfl | hx)
    · exact itemLt_irrefl x
    · simp at hx
  | i :: l, b0 => by
    by_cases hlt : itemLt i b0 = true
    · obtain ⟨b, hb, hmem, hmin⟩ := foldl_bestStep_spec l i
      refine ⟨b, by simpa [bestStep, hlt] using hb, ?_, ?_⟩
      · rcases hmem with rfl | h
        · exact Or.inr (List.mem_cons_self _ _)
        · exact Or.inr (List.mem_cons_of_mem _ h)
      · rintro x (rfl | hx)
        · have h1 : itemLt i b = false := hmin i (Or.inl rfl)
          by_cases hc : itemLt x b = true
          · exact absurd (itemLt_trans hlt hc) (by simp [h1])
          · simpa using hc
        · rcases List.mem_cons.mp hx with rfl | hx2
          · exact hmin x (Or.inl rfl)
          · exact hmin x (Or.inr hx2)
    · obtain ⟨b, hb, hmem, hmin⟩ := foldl_bestStep_spec l b0
      have hstep : bestStep (some b0) i = some b0 := by
        simp [bestStep, hlt]
      refine ⟨b, by simpa [hstep] using hb, ?_, ?_⟩
      · rcases hmem with rfl | h
        · exact Or.inl rfl
        · exact Or.inr (List.mem_cons_of_mem _ h)
      · rintro x (rfl | hx)
        · exact hmin x (Or.inl rfl)
        · rcases List.mem_cons.mp hx with rfl | hx2
          · by_cases hc : itemLt x b = true
            · exfalso
              have hb0 : itemLt b0 b = false := hmin b0 (Or.inl rfl)
              rcases itemLt_trichotomy b b0 with h3 | h3 | h3
              · exact absurd (itemLt_trans hc h3) (by simp [hlt])
              · exact absurd h3 (by simp [hb0])
              · exact absurd (h3 ▸ hc) (by simp [hlt])
            · simpa using hc
          · exact hmin x (Or.inr hx2)

theorem selectBest_eq_none_iff (l : List (List Nat × String)) :
    selectBest l = none ↔ l = [] := by
  cases l with
  | nil => simp [selectBest]
  | cons i l =>
    obtain ⟨b, hb, -, -⟩ := foldl_bestStep_spec l i
    simp [selectBest, bestStep, hb]

theorem selectBest_spec {l : List (List Nat × String)} {b : List Nat × String}
    (h : selectBest l = some b) : b ∈ l ∧ ∀ x ∈ l, itemLt x b = false := by
  cases l with
  | nil => simp [selectBest] at h
  | cons i l =>
    obtain ⟨b2, hb2, hmem, hmin⟩ := foldl_bestStep_spec l i
    have hsel : selectBest (i :: l) = some b2 := by simpa [selectBest, bestStep] using hb2
    rw [hsel] at h
    cases h
    constructor
    · rcases hmem with rfl | hm
      · exact List.mem_cons_self _ _
      · exact List.mem_cons_of_mem _ hm
    · intro x hx
      rcases List.mem_cons.mp hx with rfl | hx2
      · exact hmin x (Or.inl rfl)
      · exact hmin x (Or.inr hx2)

theorem selectBest_perm {l1 l2 : List (List Nat × String)} (h : l1.Perm l2) :
    selectBest l1 = selectBest l2 := by
  cases h1 : selectBest l1 with
  | none =>
    have : l1 = [] := (selectBest_eq_none_iff l1).mp h1
    subst this
    have : l2 = [] := (List.perm_nil.mp h.symm)
    subst this
    rfl
  | some b1 =>
    cases h2 : selectBest l2 with
    | none =>
      have : l2 = [] := (selectBest_eq_none_iff l2).mp h2
      subst this
      have : l1 = [] := List.perm_nil.mp h
      subst this
      simp [selectBest] at h1
    | some b2 =>
      obtain ⟨hm1, hmin1⟩ := selectBest_spec h1
      obtain ⟨hm2, hmin2⟩ := selectBest_spec h2
      have hb2l1 : b2 ∈ l1 := h.symm.subset hm2
      have hb1l2 : b1 ∈ l2 := h.subset hm1
      have hf1 : itemLt b2 b1 = false := hmin1 b2 hb2l1
      have hf2 : itemLt b1 b2 = false := hmin2 b1 hb1l2
      rcases itemLt_trichotomy b1 b2 with h3 | h3 | h3
      · exact absurd h3 (by simp [hf2])
      · exact absurd h3 (by simp [hf1])
      · rw [h3]

end HashAnswerPicker

/-! Facts about the strip model. -/

theorem head_dropWhile_false {α : Type} (p : α → Bool) (l : List α) {a : α} {t : List α}
    (h : l.dropWhile p = a :: t) : p a = false := by
  have h2 := List.head?_dropWhile_not p l
  rw [h] at h2
  simpa using h2

theorem dropWhile_eq_self_of_head {α : Type} {p : α → Bool} {a : α} {t : List α}
    (h : p a = false) : (a :: t).dropWhile p = a :: t := by
  simp [List.dropWhile_cons, h]

theorem stripChars_idem (l : List Char) : stripChars (stripChars l) = stripChars l := by
  unfold stripChars
  set p := Char.isWhitespace with hp
  set d1 := l.dropWhile p with hd1
  set d2 := d1.reverse.dropWhile p with hd2
  have hA : d2.reverse.dropWhile p = d2.reverse := by
    cases hc : d2.reverse with
    | nil => simp
    | cons a t =>
      obtain ⟨t0, ht0⟩ : d2 <:+ d1.reverse := hd2 ▸ List.dropWhile_suffix p
      have hrev : d2.reverse ++ t0.reverse = d1 := by
        have h3 := congrArg List.reverse ht0
        simpa using h3
      have hd1a : l.dropWhile p = a :: (t ++ t0.reverse) := by
        rw [← hd1, ← hrev, hc]
        simp
      have hpa : p a = false := head_dropWhile_false p l hd1a
      exact dropWhile_eq_self_of_head hpa
  have hB : d2.dropWhile p = d2 := by
    cases hc : d2 with
    | nil => simp
    | cons b u =>
      have hh : d1.reverse.dropWhile p = b :: u := by rw [← hd2, hc]
      have hpb : p b = false := head_dropWhile_false p d1.reverse hh
      exact dropWhile_eq_self_of_head hpb
  rw [hA, List.reverse_reverse, hB]

theorem strip_strip (s : String) : strip (strip s) = strip s :=
  congrArg String.mk (stripChars_idem s.data)

/-! Characterization of HashAnswerPicker.pick. -/

namespace HashAnswerPicker

theorem pick_error_of_all_blank (date : String) (candidates : List String)
    (h : ∀ c ∈ candidates, strip c = "") : ∃ e, pick date candidates = .error e := by
  by_cases hc : candidates = []
  · exact ⟨"candidates is empty", by simp [pick, hc]⟩
  · have hnil : pickItems date candidates = [] := by
      rw [pickItems, List.filterMap_eq_nil_iff]
      intro a ha
      simp [h a ha]
    refine ⟨"candidates contains no valid (non-empty) entries", ?_⟩
    simp [pick, hc, hnil, selectBest]

end HashAnswerPicker

/-- C3: picker order-insensitivity and determinism.  For every date and
every pair of candidate lists that are permutations of each other,
HashAnswerPicker.pick returns the same result on both lists, and a
repeated call with identical arguments returns the same result. -/
theorem picker_order_insensitive (date : String) (l1 l2 : List String)
    (h : l1.Perm l2) :
    HashAnswerPicker.pick date l1 = HashAnswerPicker.pick date l2 ∧
    HashAnswerPicker.pick date l1 = HashAnswerPicker.pick date l1 := by
  refine ⟨?_, rfl⟩
  unfold HashAnswerPicker.pick
  have hitems : (HashAnswerPicker.pickItems date l1).Perm
      (HashAnswerPicker.pickItems date l2) := by
    unfold HashAnswerPicker.pickItems
    exact h.filterMap _
  rw [HashAnswerPicker.selectBest_perm hitems]
  by_cases h1 : l1 = []
  · subst h1
    have h2 : l2 = [] := List.perm_nil.mp h.symm
    subst h2
    rfl
  · have h2 : l2 ≠ [] := fun hh => h1 (List.perm_nil.mp (hh ▸ h))
    simp [h1, h2]

/-- Witness for C3 at a concrete date and a concrete transposition. -/
theorem picker_order_insensitive_witness :
    (["사과", "바나나"] : List String).Perm ["바나나", "사과"] ∧
    HashAnswerPicker.pick "2024-06-01" ["사과", "바나나"] =
      HashAnswerPicker.pick "2024-06-01" ["바나나", "사과"] :=
  ⟨by decide, (picker_order_insensitive "2024-06-01" ["사과", "바나나"] ["바나나", "사과"]
      (by decide)).1⟩

/-- C4: picker algorithm.  Whenever some candidate is non-blank after
trimming, pick succeeds and returns a trimmed non-blank candidate whose
SHA-256 digest of the UTF-8 bytes of date, a bar, and the candidate is
lexicographically smallest (over the raw digest bytes) among all non-blank
trimmed candidates. -/
theorem picker_min_digest (date : String) (candidates : List String)
    (h : ∃ c ∈ candidates, strip c ≠ "") :
    ∃ w, HashAnswerPicker.pick date candidates = .ok w ∧
      (∃ c ∈ candidates, w = strip c) ∧ w ≠ "" ∧
      ∀ c ∈ candidates, strip c ≠ "" →
        bytesLt (HashAnswerPicker.candDigest date (strip c))
          (HashAnswerPicker.candDigest date w) = false := by
  obtain ⟨c0, hc0, hc0ne⟩ := h
  have hcne : candidates ≠ [] := fun hh => by simp [hh] at hc0
  have hitem : (HashAnswerPicker.candDigest date (strip c0), strip c0) ∈
      HashAnswerPicker.pickItems date candidates := by
    rw [HashAnswerPicker.pickItems, List.mem_filterMap]
    exact ⟨c0, hc0, by simp [hc0ne]⟩
  have hne : HashAnswerPicker.pickItems date candidates ≠ [] := by
    intro hh
    rw [hh] at hitem
    simp at hitem
  cases hsel : HashAnswerPicker.selectBest (HashAnswerPicker.pickItems date candidates) with
  | none => exact absurd ((HashAnswerPicker.selectBest_eq_none_iff _).mp hsel) hne
  | some b =>
    obtain ⟨hmem, hmin⟩ := HashAnswerPicker.selectBest_spec hsel
    rw [HashAnswerPicker.pickItems, List.mem_filterMap] at hmem
    obtain ⟨cb, hcb, hcbeq⟩ := hmem
    by_cases hbb : strip cb = ""
    · simp [hbb] at hcbeq
    · simp only [hbb, if_false] at hcbeq
      have heq : (HashAnswerPicker.candDigest date (strip cb), strip cb) = b :=
        Option.some.inj hcbeq
      have hb1 : b.1 = HashAnswerPicker.candDigest date (strip cb) := by rw [← heq]
      have hb2 : b.2 = strip cb := by rw [← heq]
      refine ⟨b.2, by simp [HashAnswerPicker.pick, hcne, hsel], ⟨cb, hcb, hb2⟩,
        by rw [hb2]; exact hbb, ?_⟩
      intro c hcmem hcne2
      have hx : (HashAnswerPicker.candDigest date (strip c), strip c) ∈
          HashAnswerPicker.pickItems date candidates := by
        rw [HashAnswerPicker.pickItems, List.mem_filterMap]
        exact ⟨c, hcmem, by simp [hcne2]⟩
      have hflt := hmin _ hx
      have hfirst : bytesLt (HashAnswerPicker.candDigest date (strip c)) b.1 = false := by
        revert hflt
        unfold HashAnswerPicker.itemLt
        cases hbl : bytesLt (HashAnswerPicker.candDigest date (strip c)) b.1 <;> simp
      rw [hb2, ← hb1]
      exact hfirst

/-- Witness for C4 at a concrete date and candidate list with blanks. -/
theorem picker_min_digest_witness :
    (∃ c ∈ (["", " ", "hi"] : List String), strip c ≠ "") ∧
    ∃ w, HashAnswerPicker.pick "2024-06-01" ["", " ", "hi"] = .ok w ∧
      (∃ c ∈ (["", " ", "hi"] : List String), w = strip c) ∧ w ≠ "" ∧
      ∀ c ∈ (["", " ", "hi"] : List String), strip c ≠ "" →
        bytesLt (HashAnswerPicker.candDigest "2024-06-01" (strip c))
          (HashAnswerPicker.candDigest "2024-06-01" w) = false :=
  ⟨by decide, picker_min_digest "2024-06-01" ["", " ", "hi"] (by decide)⟩

/-! Characterization of run_daily_refresh by the picker and vector cases. -/

theorem run_error_spec {date : String} {src : List String}
    {picker : String → List String → Except String String} {vs : VectorStorePort}
    {st0 : Option TodayAnswerState} {cache : Option CacheState} {k : Nat} {e : String}
    (h : picker date src = .error e) :
    run_daily_refresh date src picker vs st0 cache k = RunOutput.mk (.error e) st0 [] := by
  simp only [run_daily_refresh, h]

theorem run_ok_none_spec {date : String} {src : List String}
    {picker : String → List String → Except String String} {vs : VectorStorePort}
    {st0 : Option TodayAnswerState} {cache : Option CacheState} {k : Nat} {p : String}
    (hp : picker date src = .ok p) (hv : vs.get_vector (strip p) = none) :
    run_daily_refresh date src picker vs st0 cache k =
      RunOutput.mk (.ok (DailyRefreshResult.mk (TodayAnswerState.mk date (strip p) none) []))
        (some (TodayAnswerState.mk date (strip p) none))
        (rotateTrace cache date (strip p) []) := by
  simp only [run_daily_refresh, hp, hv]

theorem run_ok_some_spec {date : String} {src : List String}
    {picker : String → List String → Except String String} {vs : VectorStorePort}
    {st0 : Option TodayAnswerState} {cache : Option CacheState} {k : Nat} {p : String}
    {v : List ℚ}
    (hp : picker date src = .ok p) (hv : vs.get_vector (strip p) = some v) :
    run_daily_refresh date src picker vs st0 cache k =
      RunOutput.mk
        (.ok (DailyRefreshResult.mk (TodayAnswerState.mk date (strip p) (some v))
          ((if (filter_and_dedupe (strip p) (vs.knn v (k + 1))).length < k then
              filter_and_dedupe (strip p) (vs.knn v (k + 50))
            else filter_and_dedupe (strip p) (vs.knn v (k + 1))).take k)))
        (some (TodayAnswerState.mk date (strip p) (some v)))
        (rotateTrace cache date (strip p)
          ((if (filter_and_dedupe (strip p) (vs.knn v (k + 1))).length < k then
              filter_and_dedupe (strip p) (vs.knn v (k + 50))
            else filter_and_dedupe (strip p) (vs.knn v (k + 1))).take k)) := by
  simp only [run_daily_refresh, hp, hv]

theorem run_result_ok {date : String} {src : List String}
    {picker : String → List String → Except String String} {vs : VectorStorePort}
    {st0 : Option TodayAnswerState} {cache : Option CacheState} {k : Nat}
    {r : DailyRefreshResult}
    (h : (run_daily_refresh date src picker vs st0 cache k).result = .ok r) :
    ∃ p, picker date src = .ok p ∧ r.state.answer = strip p ∧ r.state.date = date ∧
      (r.topk = [] ∨ ∃ l, r.topk = (filter_and_dedupe r.state.answer l).take k) ∧
      run_daily_refresh date src picker vs st0 cache k =
        RunOutput.mk (.ok r) (some r.state) (rotateTrace cache date r.state.answer r.topk) := by
  cases hp : picker date src with
  | error e =>
    rw [run_error_spec hp] at h
    exact absurd h (by simp)
  | ok p =>
    cases hv : vs.get_vector (strip p) with
    | none =>
      rw [run_ok_none_spec hp hv] at h
      have hr : DailyRefreshResult.mk (TodayAnswerState.mk date (strip p) none) [] = r :=
        Except.ok.inj h
      subst hr
      exact ⟨p, rfl, rfl, rfl, Or.inl rfl, run_ok_none_spec hp hv⟩
    | some v =>
      rw [run_ok_some_spec hp hv] at h
      have hr := Except.ok.inj h
      subst hr
      by_cases hc : (filter_and_dedupe (strip p) (vs.knn v (k + 1))).length < k
      · exact ⟨p, rfl, rfl, rfl, Or.inr ⟨vs.knn v (k + 50), by simp [hc]⟩,
          run_ok_some_spec hp hv⟩
      · exact ⟨p, rfl, rfl, rfl, Or.inr ⟨vs.knn v (k + 1), by simp [hc]⟩,
          run_ok_some_spec hp hv⟩

/-! Effect of an interpreted rotation trace on the cache state. -/

theorem rotateTrace_some (c : CacheState) (d a : String) (tk : List Neighbor) :
    rotateTrace (some c) d a tk =
      CacheOp.save_daily_answer d a :: CacheOp.save_daily_topk d tk ::
        CacheOp.set_active_date d ::
        (match c.active_date with
         | some p => if p ≠ "" ∧ p ≠ d then [CacheOp.delete_daily p] else []
         | none => []) := rfl

theorem applyTrace_rotate_active (c : CacheState) (d a : String) (tk : List Neighbor) :
    (applyTrace c (rotateTrace (some c) d a tk)).active_date = some d := by
  rw [rotateTrace_some]
  cases hact : c.active_date with
  | none => simp [applyTrace, applyOp]
  | some p =>
    by_cases hcond : p ≠ "" ∧ p ≠ d
    · simp [applyTrace, applyOp, hcond.1, hcond.2]
    · rw [not_and_or, not_not, not_not] at hcond
      rcases hcond with rfl | rfl <;> simp [applyTrace, applyOp]

theorem applyTrace_rotate_answer (c : CacheState) (d a : String) (tk : List Neighbor) :
    (applyTrace c (rotateTrace (some c) d a tk)).answers d = some a := by
  rw [rotateTrace_some]
  cases hact : c.active_date with
  | none => simp [applyTrace, applyOp]
  | some p =>
    by_cases hcond : p ≠ "" ∧ p ≠ d
    · have hdp : ¬ (d = p) := fun hh => hcond.2 hh.symm
      simp [applyTrace, applyOp, hcond.1, hcond.2, hdp]
    · rw [not_and_or, not_not, not_not] at hcond
      rcases hcond with rfl | rfl <;> simp [applyTrace, applyOp]

theorem applyTrace_rotate_topk (c : CacheState) (d a : String) (tk : List Neighbor) :
    (applyTrace c (rotateTrace (some c) d a tk)).topks d = some tk := by
  rw [rotateTrace_some]
  cases hact : c.active_date with
  | none => simp [applyTrace, applyOp]
  | some p =>
    by_cases hcond : p ≠ "" ∧ p ≠ d
    · have hdp : ¬ (d = p) := fun hh => hcond.2 hh.symm
      simp [applyTrace, applyOp, hcond.1, hcond.2, hdp]
    · rw [not_and_or, not_not, not_not] at hcond
      rcases hcond with rfl | rfl <;> simp [applyTrace, applyOp]

theorem applyTrace_rotate_deleted (c : CacheState) (d a p : String) (tk : List Neighbor)
    (hact : c.active_date = some p) (hne : p ≠ "") (hnd : p ≠ d) :
    (applyTrace c (rotateTrace (some c) d a tk)).answers p = none ∧
    (applyTrace c (rotateTrace (some c) d a tk)).topks p = none := by
  rw [rotateTrace_some, hact]
  simp [applyTrace, applyOp, hne, hnd]

/-! Invariants of filter_and_dedupe. -/

theorem fdStep_inv {answer : String} {acc : List String × List Neighbor} {it : Neighbor}
    (h : FdInv answer acc) : FdInv answer (fdStep answer acc it) := by
  unfold fdStep
  by_cases h1 : normalizeWord it.word = ""
  · simpa [h1] using h
  · by_cases h2 : normalizeWord it.word = answer
    · simpa [h1, h2] using h
    · by_cases h3 : normalizeWord it.word ∈ acc.1
      · simpa [h1, h2, h3] using h
      · simp only [h1, h2, h3, if_false]
        obtain ⟨hall, hpw⟩ := h
        constructor
        · intro n hn
          rcases List.mem_append.mp hn with hn2 | hn2
          · obtain ⟨a1, a2, a3, a4⟩ := hall n hn2
            exact ⟨a1, a2, a3, List.mem_append_left _ a4⟩
          · have hn3 : n = Neighbor.mk (normalizeWord it.word) it.score := by simpa using hn2
            subst hn3
            refine ⟨h1, h2, ?_, List.mem_append_right _ (by simp)⟩
            simpa [normalizeWord] using strip_strip it.word
        · rw [List.pairwise_append]
          refine ⟨hpw, by simp, ?_⟩
          intro m hm n2 hn2
          have hn3 : n2 = Neighbor.mk (normalizeWord it.word) it.score := by simpa using hn2
          subst hn3
          intro he
          have hmw : m.word = normalizeWord it.word := he
          exact h3 (hmw ▸ (hall m hm).2.2.2)

theorem foldl_fd_inv (answer : String) (items : List Neighbor)
    (acc : List String × List Neighbor) (h : FdInv answer acc) :
    FdInv answer (items.foldl (fdStep answer) acc) := by
  induction items generalizing acc with
  | nil => exact h
  | cons it rest ih => exact ih _ (fdStep_inv h)

theorem filter_and_dedupe_spec (answer : String) (items : List Neighbor) :
    (∀ n ∈ filter_and_dedupe answer items,
        n.word ≠ "" ∧ n.word ≠ answer ∧ strip n.word = n.word) ∧
    (filter_and_dedupe answer items).Pairwise (fun m n => m.word ≠ n.word) := by
  have h := foldl_fd_inv answer items ([], []) ⟨by simp, List.Pairwise.nil⟩
  obtain ⟨hall, hpw⟩ := h
  unfold filter_and_dedupe
  exact ⟨fun n hn => ⟨(hall n hn).1, (hall n hn).2.1, (hall n hn).2.2.1⟩, hpw⟩

theorem neighborListOk_nil (answer : String) : NeighborListOk answer [] :=
  ⟨by simp, List.Pairwise.nil⟩

theorem neighborListOk_fd_take (answer : String) (items : List Neighbor) (k : Nat) :
    NeighborListOk answer ((filter_and_dedupe answer items).take k) := by
  obtain ⟨h1, h2⟩ := filter_and_dedupe_spec answer items
  constructor
  · intro n hn
    have hn2 : n ∈ filter_and_dedupe answer items := (List.take_sublist _ _).subset hn
    obtain ⟨a1, a2, a3⟩ := h1 n hn2
    rw [a3]
    exact ⟨a2, a1⟩
  · have hsub : ((filter_and_dedupe answer items).take k).Pairwise
        (fun m n => m.word ≠ n.word) :=
      List.Pairwise.sublist (List.take_sublist _ _) h2
    refine hsub.imp_of_mem ?_
    intro m n hm hn hne
    rw [(h1 m ((List.take_sublist _ _).subset hm)).2.2,
        (h1 n ((List.take_sublist _ _).subset hn)).2.2]
    exact hne

theorem rotateTrace_topk_mem {cache : Option CacheState} {date answer : String}
    {tk items : List Neighbor} {d : String}
    (h : CacheOp.save_daily_topk d items ∈ rotateTrace cache date answer tk) :
    items = tk := by
  cases cache with
  | none => simp [rotateTrace] at h
  | some c =>
    rw [rotateTrace_some] at h
    cases hact : c.active_date with
    | none =>
      rw [hact] at h
      simp at h
      exact h.2
    | some p =>
      rw [hact] at h
      by_cases hcond : p ≠ "" ∧ p ≠ date
      · simp [hcond.1, hcond.2] at h
        exact h.2
      · rw [not_and_or, not_not, not_not] at hcond
        rcases hcond with rfl | rfl <;> (simp at h; exact h.2)

/-- C2: rotation ordering.  In every execution with a cache supplied (both
the vector-present and vector-absent branches), the trace issued is the
answer write and the neighbor write for the new date, then the pointer
flip, and a delete of the previously active date (only when present,
non-empty and different from the new date) comes strictly after all of
them; a failing run issues no cache command at all, so the pointer is
never flipped before both records are written and the delete is only ever
last. -/
theorem rotation_ordering (date : String) (src : List String)
    (picker : String → List String → Except String String) (vs : VectorStorePort)
    (st0 : Option TodayAnswerState) (c : CacheState) (k : Nat) :
    (∀ r : DailyRefreshResult,
      (run_daily_refresh date src picker vs st0 (some c) k).result = .ok r →
      ∃ rest, (run_daily_refresh date src picker vs st0 (some c) k).trace =
          CacheOp.save_daily_answer date r.state.answer ::
          CacheOp.save_daily_topk date r.topk ::
          CacheOp.set_active_date date :: rest ∧
        (rest = [] ∨ ∃ p, rest = [CacheOp.delete_daily p] ∧ c.active_date = some p ∧
          p ≠ "" ∧ p ≠ date)) ∧
    (∀ e, (run_daily_refresh date src picker vs st0 (some c) k).result = .error e →
      (run_daily_refresh date src picker vs st0 (some c) k).trace = []) := by
  constructor
  · intro r hr
    obtain ⟨p, hp, hans, hdate, -, hrun⟩ := run_result_ok hr
    rw [hrun]
    simp only [rotateTrace_some]
    cases hact : c.active_date with
    | none => exact ⟨[], by simp, Or.inl rfl⟩
    | some q =>
      by_cases hcond : q ≠ "" ∧ q ≠ date
      · exact ⟨[CacheOp.delete_daily q], by simp [hcond.1, hcond.2],
          Or.inr ⟨q, rfl, rfl, hcond.1, hcond.2⟩⟩
      · rw [not_and_or, not_not, not_not] at hcond
        rcases hcond with rfl | rfl <;> exact ⟨[], by simp, Or.inl rfl⟩
  · intro e he
    cases hp : picker date src with
    | error e2 => rw [run_error_spec hp]
    | ok p =>
      cases hv : vs.get_vector (strip p) with
      | none =>
        rw [run_ok_none_spec hp hv] at he
        simp at he
      | some v =>
        rw [run_ok_some_spec hp hv] at he
        simp at he

/-- Witness for C2 on a concrete successful run with a cache. -/
theorem rotation_ordering_witness :
    ∃ rest,
      (run_daily_refresh "2024-01-01" ["alpha"] demoPicker demoVS none
          (some demoCache) 1).trace =
        CacheOp.save_daily_answer "2024-01-01" "alpha" ::
        CacheOp.save_daily_topk "2024-01-01" [Neighbor.mk "beta" 1] ::
        CacheOp.set_active_date "2024-01-01" :: rest ∧
      (rest = [] ∨ ∃ p, rest = [CacheOp.delete_daily p] ∧ demoCache.active_date = some p ∧
        p ≠ "" ∧ p ≠ "2024-01-01") :=
  (rotation_ordering "2024-01-01" ["alpha"] demoPicker demoVS none demoCache 1).1
    (DailyRefreshResult.mk (TodayAnswerState.mk "2024-01-01" "alpha" (some [1]))
      [Neighbor.mk "beta" 1]) (by decide)

/-- C10: cache non-interference.  For fixed date, candidate source, answer
picker, vector store, initial state and k, the returned result and the
published state-store slot are identical whether the cache is absent or
any cache state is supplied; the cache only influences the commands sent
to the cache itself. -/
theorem cache_noninterference (date : String) (src : List String)
    (picker : String → List String → Except String String) (vs : VectorStorePort)
    (st0 : Option TodayAnswerState) (k : Nat) (cache1 cache2 : Option CacheState) :
    (run_daily_refresh date src picker vs st0 cache1 k).result =
      (run_daily_refresh date src picker vs st0 cache2 k).result ∧
    (run_daily_refresh date src picker vs st0 cache1 k).state_store =
      (run_daily_refresh date src picker vs st0 cache2 k).state_store := by
  cases hp : picker date src with
  | error e =>
    rw [@run_error_spec date src picker vs st0 cache1 k e hp,
        @run_error_spec date src picker vs st0 cache2 k e hp]
    exact ⟨rfl, rfl⟩
  | ok p =>
    cases hv : vs.get_vector (strip p) with
    | none =>
      rw [@run_ok_none_spec date src picker vs st0 cache1 k p hp hv,
          @run_ok_none_spec date src picker vs st0 cache2 k p hp hv]
      exact ⟨rfl, rfl⟩
    | some v =>
      rw [@run_ok_some_spec date src picker vs st0 cache1 k p v hp hv,
          @run_ok_some_spec date src picker vs st0 cache2 k p v hp hv]
      exact ⟨rfl, rfl⟩

/-- C8: failure atomicity on an empty-or-all-blank candidate list.  The
picker fails, the run propagates the failure, the state-store slot is left
exactly as it was, and no cache command is issued. -/
theorem empty_candidates_failure (date : String) (candidates : List String)
    (vs : VectorStorePort) (st0 : Option TodayAnswerState) (cache : Option CacheState)
    (k : Nat) (h : ∀ c ∈ candidates, strip c = "") :
    (∃ e, HashAnswerPicker.pick date candidates = .error e) ∧
    ∃ e, run_daily_refresh date candidates HashAnswerPicker.pick vs st0 cache k =
      RunOutput.mk (.error e) st0 [] := by
  obtain ⟨e, he⟩ := HashAnswerPicker.pick_error_of_all_blank date candidates h
  exact ⟨⟨e, he⟩, ⟨e, run_error_spec he⟩⟩

/-- Witness for C8 on a concrete all-blank candidate list. -/
theorem empty_candidates_failure_witness :
    (∃ e, HashAnswerPicker.pick "2024-06-01" ["", "  "] = .error e) ∧
    ∃ e, run_daily_refresh "2024-06-01" ["", "  "] HashAnswerPicker.pick demoVS none
        (some demoCache) 3 = RunOutput.mk (.error e) none [] :=
  empty_candidates_failure "2024-06-01" ["", "  "] demoVS none (some demoCache) 3 (by decide)

/-- C7: neighbor-list invariant.  Every neighbor list returned by a
successful run, and every list passed to the save-neighbors cache command,
contains no entry whose trimmed word equals the picked answer, no blank
word, and no two entries with the same trimmed word, whatever the knn
port returned. -/
theorem neighbor_list_invariant (date : String) (src : List String)
    (picker : String → List String → Except String String) (vs : VectorStorePort)
    (st0 : Option TodayAnswerState) (cache : Option CacheState) (k : Nat)
    (r : DailyRefreshResult)
    (h : (run_daily_refresh date src picker vs st0 cache k).result = .ok r) :
    NeighborListOk r.state.answer r.topk ∧
    ∀ d items, CacheOp.save_daily_topk d items ∈
        (run_daily_refresh date src picker vs st0 cache k).trace →
      NeighborListOk r.state.answer items := by
  obtain ⟨p, hp, hans, hdate, htopk, hrun⟩ := run_result_ok h
  have hok : NeighborListOk r.state.answer r.topk := by
    rcases htopk with h0 | ⟨l, hl⟩
    · rw [h0]
      exact neighborListOk_nil _
    · rw [hl]
      exact neighborListOk_fd_take _ _ _
  refine ⟨hok, ?_⟩
  intro d items hmem
  rw [hrun] at hmem
  have hitems : items = r.topk := rotateTrace_topk_mem hmem
  rw [hitems]
  exact hok

/-- Witness for C7 on a concrete run whose knn response contains the
answer itself, a blank-padded duplicate, and a valid neighbor. -/
theorem neighbor_list_invariant_witness :
    NeighborListOk "alpha" [Neighbor.mk "beta" 1] ∧
    ∀ d items, CacheOp.save_daily_topk d items ∈
        (run_daily_refresh "2024-01-01" ["alpha"] demoPicker demoVS none
          (some demoCache) 1).trace →
      NeighborListOk "alpha" items :=
  neighbor_list_invariant "2024-01-01" ["alpha"] demoPicker demoVS none (some demoCache) 1
    (DailyRefreshResult.mk (TodayAnswerState.mk "2024-01-01" "alpha" (some [1]))
      [Neighbor.mk "beta" 1]) (by decide)

/-- C5: partial publication on an absent vector.  When the picker succeeds
and the vector store has no vector for the picked answer, the run succeeds,
the state-store slot holds that date and answer with an absent vector, the
returned neighbor list is empty, and the supplied cache receives an empty
neighbor record for the date with the active-date pointer flipped to it. -/
theorem partial_publication (date : String) (src : List String)
    (picker : String → List String → Except String String) (vs : VectorStorePort)
    (st0 : Option TodayAnswerState) (c : CacheState) (k : Nat) (p : String)
    (hp : picker date src = .ok p)
    (hv : vs.get_vector (strip p) = none) :
    ∃ r, (run_daily_refresh date src picker vs st0 (some c) k).result = .ok r ∧
      (run_daily_refresh date src picker vs st0 (some c) k).state_store =
        some (TodayAnswerState.mk date (strip p) none) ∧
      r.state = TodayAnswerState.mk date (strip p) none ∧ r.topk = [] ∧
      (applyTrace c (run_daily_refresh date src picker vs st0 (some c) k).trace).topks date =
        some [] ∧
      (applyTrace c (run_daily_refresh date src picker vs st0 (some c) k).trace).active_date =
        some date := by
  rw [@run_ok_none_spec date src picker vs st0 (some c) k p hp hv]
  exact ⟨_, rfl, rfl, rfl, rfl, applyTrace_rotate_topk c date (strip p) [],
    applyTrace_rotate_active c date (strip p) []⟩

/-- Witness for C5 with a stub store that knows no vectors. -/
theorem partial_publication_witness :
    ∃ r, (run_daily_refresh "2024-01-01" ["gamma"] demoPicker demoVSempty none
        (some demoCache) 5).result = .ok r ∧
      (run_daily_refresh "2024-01-01" ["gamma"] demoPicker demoVSempty none
        (some demoCache) 5).state_store =
        some (TodayAnswerState.mk "2024-01-01" (strip "gamma") none) ∧
      r.state = TodayAnswerState.mk "2024-01-01" (strip "gamma") none ∧ r.topk = [] ∧
      (applyTrace demoCache (run_daily_refresh "2024-01-01" ["gamma"] demoPicker demoVSempty
        none (some demoCache) 5).trace).topks "2024-01-01" = some [] ∧
      (applyTrace demoCache (run_daily_refresh "2024-01-01" ["gamma"] demoPicker demoVSempty
        none (some demoCache) 5).trace).active_date = some "2024-01-01" :=
  partial_publication "2024-01-01" ["gamma"] demoPicker demoVSempty none demoCache 5
    "gamma" rfl (by decide)

/-- C6: widening retry.  With a present answer vector, if fewer than k
neighbors survive filtering of the knn response for k + 1 candidates, the
final list is the filtered response of the k + 50 re-query truncated to k;
otherwise it is the filtered first response truncated to k.  Either way
its length is exactly min k (survivors of the response actually used), so
returning fewer than k entries is not an error. -/
theorem widening_retry (date : String) (src : List String)
    (picker : String → List String → Except String String) (vs : VectorStorePort)
    (st0 : Option TodayAnswerState) (cache : Option CacheState) (k : Nat) (p : String)
    (v : List ℚ)
    (hp : picker date src = .ok p)
    (hv : vs.get_vector (strip p) = some v) :
    ∃ r, (run_daily_refresh date src picker vs st0 cache k).result = .ok r ∧
      ((filter_and_dedupe (strip p) (vs.knn v (k + 1))).length < k →
        r.topk = (filter_and_dedupe (strip p) (vs.knn v (k + 50))).take k ∧
        r.topk.length = min k (filter_and_dedupe (strip p) (vs.knn v (k + 50))).length) ∧
      (¬ (filter_and_dedupe (strip p) (vs.knn v (k + 1))).length < k →
        r.topk = (filter_and_dedupe (strip p) (vs.knn v (k + 1))).take k ∧
        r.topk.length = min k (filter_and_dedupe (strip p) (vs.knn v (k + 1))).length) := by
  rw [@run_ok_some_spec date src picker vs st0 cache k p v hp hv]
  refine ⟨_, rfl, ?_, ?_⟩
  · intro hlt
    constructor
    · simp [hlt]
    · simp [hlt, List.length_take]
  · intro hge
    constructor
    · simp [hge]
    · simp [hge, List.length_take]

/-- Witness for C6 where the first query leaves fewer than k survivors and
the widened query is actually used. -/
theorem widening_retry_witness :
    ∃ r, (run_daily_refresh "2024-01-01" ["alpha"] demoPicker demoVS none none 2).result =
        .ok r ∧
      ((filter_and_dedupe (strip "alpha") (demoVS.knn [1] (2 + 1))).length < 2 →
        r.topk = (filter_and_dedupe (strip "alpha") (demoVS.knn [1] (2 + 50))).take 2 ∧
        r.topk.length = min 2 (filter_and_dedupe (strip "alpha")
          (demoVS.knn [1] (2 + 50))).length) ∧
      (¬ (filter_and_dedupe (strip "alpha") (demoVS.knn [1] (2 + 1))).length < 2 →
        r.topk = (filter_and_dedupe (strip "alpha") (demoVS.knn [1] (2 + 1))).take 2 ∧
        r.topk.length = min 2 (filter_and_dedupe (strip "alpha")
          (demoVS.knn [1] (2 + 1))).length) :=
  widening_retry "2024-01-01" ["alpha"] demoPicker demoVS none none 2 "alpha" [1]
    rfl (by decide)

/-- C1: rotation atomicity.  After a successful run for date D1 and then a
successful run for a different date D2 against the caches produced by
interpreting the issued traces in order (D1 non-empty, as ISO dates are),
the active-date pointer equals D2, the answer and neighbor records of D2
exist, and both records of D1 are gone. -/
theorem rotation_atomicity (D1 D2 : String) (src : List String)
    (picker : String → List String → Except String String) (vs : VectorStorePort)
    (st0 : Option TodayAnswerState) (c0 c1 c2 : CacheState) (k : Nat)
    (hD : D2 ≠ D1) (hD1 : D1 ≠ "")
    (r1 r2 : DailyRefreshResult)
    (h1 : (run_daily_refresh D1 src picker vs st0 (some c0) k).result = .ok r1)
    (_hv1 : r1.state.answer_vector.isSome = true)
    (hc1 : c1 = applyTrace c0 (run_daily_refresh D1 src picker vs st0 (some c0) k).trace)
    (h2 : (run_daily_refresh D2 src picker vs
        (run_daily_refresh D1 src picker vs st0 (some c0) k).state_store (some c1) k).result
        = .ok r2)
    (_hv2 : r2.state.answer_vector.isSome = true)
    (hc2 : c2 = applyTrace c1 (run_daily_refresh D2 src picker vs
        (run_daily_refresh D1 src picker vs st0 (some c0) k).state_store (some c1) k).trace) :
    c2.active_date = some D2 ∧ (c2.answers D2).isSome = true ∧ (c2.topks D2).isSome = true ∧
    c2.answers D1 = none ∧ c2.topks D1 = none := by
  obtain ⟨p1, hp1, ha1, hd1, ht1, hrun1⟩ := run_result_ok h1
  obtain ⟨p2, hp2, ha2, hd2, ht2, hrun2⟩ := run_result_ok h2
  rw [hrun1] at hc1
  rw [hrun2] at hc2
  have hc1a : c1 = applyTrace c0 (rotateTrace (some c0) D1 r1.state.answer r1.topk) := hc1
  have hc2a : c2 = applyTrace c1 (rotateTrace (some c1) D2 r2.state.answer r2.topk) := hc2
  have hc1act : c1.active_date = some D1 := by
    rw [hc1a]
    exact applyTrace_rotate_active c0 D1 _ _
  subst hc2a
  refine ⟨applyTrace_rotate_active c1 D2 _ _, ?_, ?_, ?_⟩
  · rw [applyTrace_rotate_answer c1 D2 _ _]
    rfl
  · rw [applyTrace_rotate_topk c1 D2 _ _]
    rfl
  · exact applyTrace_rotate_deleted c1 D2 r2.state.answer D1 r2.topk hc1act hD1
      (fun hh => hD hh.symm)

/-- Witness for C1 on two concrete chained runs. -/
theorem rotation_atomicity_witness :
    demoCache2.active_date = some "2024-01-02" ∧
    (demoCache2.answers "2024-01-02").isSome = true ∧
    (demoCache2.topks "2024-01-02").isSome = true ∧
    demoCache2.answers "2024-01-01" = none ∧
    demoCache2.topks "2024-01-01" = none :=
  rotation_atomicity "2024-01-01" "2024-01-02" ["alpha"] demoPicker demoVS none
    demoCache demoCache1 demoCache2 1 (by decide) (by decide)
    (DailyRefreshResult.mk (TodayAnswerState.mk "2024-01-01" "alpha" (some [1]))
      [Neighbor.mk "beta" 1])
    (DailyRefreshResult.mk (TodayAnswerState.mk "2024-01-02" "alpha" (some [1]))
      [Neighbor.mk "beta" 1])
    (by decide) (by decide) rfl (by decide) (by decide) rfl

/-! Facts about the cosine-similarity accumulation. -/

theorem foldl_triple (l : List (ℚ × ℚ)) (d0 x0 y0 : ℚ) :
    l.foldl (fun acc p => (acc.1 + p.1 * p.2, acc.2.1 + p.1 * p.1, acc.2.2 + p.2 * p.2))
      (d0, x0, y0) =
    (d0 + (l.map (fun p => p.1 * p.2)).sum, x0 + (l.map (fun p => p.1 * p.1)).sum,
     y0 + (l.map (fun p => p.2 * p.2)).sum) := by
  induction l generalizing d0 x0 y0 with
  | nil => simp
  | cons h t ih =>
    simp only [List.foldl_cons, List.map_cons, List.sum_cons, ih]
    rw [Prod.mk.injEq, Prod.mk.injEq]
    refine ⟨by ring, by ring, by ring⟩

theorem zip_sq_fst (a b : List ℚ) (h : a.length ≤ b.length) :
    (a.zip b).map (fun p => p.1 * p.1) = a.map (fun x => x * x) := by
  have h1 := List.map_fst_zip a b h
  calc (a.zip b).map (fun p => p.1 * p.1)
      = ((a.zip b).map Prod.fst).map (fun x => x * x) := by
        rw [List.map_map]
        rfl
    _ = a.map (fun x => x * x) := by rw [h1]

theorem zip_sq_snd (a b : List ℚ) (h : b.length ≤ a.length) :
    (a.zip b).map (fun p => p.2 * p.2) = b.map (fun x => x * x) := by
  have h1 := List.map_snd_zip a b h
  calc (a.zip b).map (fun p => p.2 * p.2)
      = ((a.zip b).map Prod.snd).map (fun x => x * x) := by
        rw [List.map_map]
        rfl
    _ = b.map (fun x => x * x) := by rw [h1]

theorem simAccum_eq (a b : List ℚ) (h : a.length = b.length) :
    simAccum a b = (dotList a b, sumSq a, sumSq b) := by
  unfold simAccum dotList sumSq
  rw [foldl_triple, zip_sq_fst a b (le_of_eq h), zip_sq_snd a b (le_of_eq h.symm)]
  rw [Prod.mk.injEq, Prod.mk.injEq]
  refine ⟨by ring, by ring, by ring⟩

theorem sumSq_nonneg (l : List ℚ) : 0 ≤ sumSq l := by
  unfold sumSq
  apply List.sum_nonneg
  intro x hx
  obtain ⟨y, -, rfl⟩ := List.mem_map.mp hx
  exact mul_self_nonneg y

theorem euclNorm_eq_zero_iff (l : List ℚ) : euclNorm l = 0 ↔ sumSq l = 0 := by
  unfold euclNorm
  rw [Real.sqrt_eq_zero']
  constructor
  · intro hle
    have h0 : (0 : ℝ) ≤ (sumSq l : ℝ) := by exact_mod_cast sumSq_nonneg l
    have h2 : (sumSq l : ℝ) = 0 := le_antisymm hle h0
    exact_mod_cast h2
  · intro h
    rw [h]
    simp

/-- C9: SimilarityScorer contract.  cosine_similarity returns absent
exactly when the lengths differ, or the sequences are empty, or either
Euclidean norm is zero; in all other cases it returns the dot product
divided by the product of the two Euclidean norms. -/
theorem cosine_similarity_contract (a b : List ℚ) :
    (cosine_similarity a b = none ↔
      a.length ≠ b.length ∨ a = [] ∨ euclNorm a = 0 ∨ euclNorm b = 0) ∧
    (a.length = b.length → a ≠ [] → euclNorm a ≠ 0 → euclNorm b ≠ 0 →
      cosine_similarity a b = some ((dotList a b : ℝ) / (euclNorm a * euclNorm b))) := by
  by_cases hlen : a.length = b.length
  · by_cases hnil : a = []
    · subst hnil
      constructor
      · constructor
        · intro _
          exact Or.inr (Or.inl rfl)
        · intro _
          simp [cosine_similarity]
      · intro _ hne
        exact absurd rfl hne
    · have hlennz : ¬ a.length = 0 := fun hh => hnil (List.length_eq_zero.mp hh)
      have hblen : ¬ b.length = 0 := fun hh => hlennz (hlen.trans hh)
      have hacc : simAccum a b = (dotList a b, sumSq a, sumSq b) := simAccum_eq a b hlen
      by_cases hza : sumSq a = 0
      · constructor
        · constructor
          · intro _
            exact Or.inr (Or.inr (Or.inl ((euclNorm_eq_zero_iff a).mpr hza)))
          · intro _
            simp [cosine_similarity, hlen, hlennz, hblen, hacc, hza]
        · intro _ _ hna _
          exact absurd ((euclNorm_eq_zero_iff a).mpr hza) hna
      · by_cases hzb : sumSq b = 0
        · constructor
          · constructor
            · intro _
              exact Or.inr (Or.inr (Or.inr ((euclNorm_eq_zero_iff b).mpr hzb)))
            · intro _
              simp [cosine_similarity, hlen, hlennz, hblen, hacc, hzb]
          · intro _ _ _ hnb
            exact absurd ((euclNorm_eq_zero_iff b).mpr hzb) hnb
        · constructor
          · constructor
            · intro hnone
              exfalso
              simp [cosine_similarity, hlen, hlennz, hblen, hacc, hza, hzb] at hnone
            · rintro (h | h | h | h)
              · exact absurd hlen h
              · exact absurd h hnil
              · exact absurd ((euclNorm_eq_zero_iff a).mp h) hza
              · exact absurd ((euclNorm_eq_zero_iff b).mp h) hzb
          · intro _ _ _ _
            simp [cosine_similarity, hlen, hlennz, hblen, hacc, hza, hzb, euclNorm]
  · constructor
    · constructor
      · intro _
        exact Or.inl hlen
      · intro _
        simp [cosine_similarity, hlen]
    · intro he
      exact absurd he hlen

/-- Witness for C9 on two concrete unit sequences. -/
theorem cosine_similarity_contract_witness :
    cosine_similarity [1] [1] =
      some ((dotList [1] [1] : ℝ) / (euclNorm [1] * euclNorm [1])) :=
  (cosine_similarity_contract [1] [1]).2 rfl (by simp)
    (fun h => absurd ((euclNorm_eq_zero_iff [1]).mp h) (by simp [sumSq]))
    (fun h => absurd ((euclNorm_eq_zero_iff [1]).mp h) (by simp [sumSq]))

set_option maxRecDepth 100000 in
/-- Sanity check of the SHA-256 embedding against the FIPS 180-4 test
vector: the digest of the ASCII bytes of abc. -/
theorem sha256_fips_vector :
    sha256 [97, 98, 99] =
      [186, 120, 22, 191, 143, 1, 207, 234, 65, 65, 64, 222, 93, 174, 34, 35,
       176, 3, 97, 163, 150, 23, 122, 156, 180, 16, 255, 97, 242, 0, 21, 173] := by decide
